import Mathlib

set_option maxHeartbeats 1000000

/-!
Shallow embedding of the Google OAuth2 service of shaharia-lab/mcp-tools
(src/google_service.go) and proofs about the specified properties of its
credential store, callback listener, authorization orchestration and
refresh scheduler.

Time is modelled as an integer number of seconds (or, for the nonce,
nanoseconds) since the epoch; the oauth2 provider endpoints are modelled
as oracles of type Except String Token supplied to the functions that
call them.
-/

namespace McpTools

/-- An oauth2.Token as stored by the service: access token, refresh token
(empty string when absent, as in Go), absolute expiry timestamp in seconds. -/
structure Token where
  accessToken : String
  refreshToken : String
  expiry : Int
  deriving Repr, DecidableEq

/-- The authenticated HTTP client produced by oauth2Cfg.Client(ctx, token):
it is derived from, and wraps, the token it was built with. -/
structure GClient where
  token : Token
  deriving Repr, DecidableEq

/-- oauth2Cfg.Client(ctx, token), the derivation of the client from a token. -/
def clientOf (t : Token) : GClient := ⟨t⟩

/-- GoogleConfig: construction-time configuration, immutable afterwards. -/
structure GoogleConfig where
  clientID : String
  clientSecret : String
  scopes : List String
  redirectURL : String
  authServerPort : String
  deriving Repr, DecidableEq

/-- The mutable fields of GoogleService guarded by the RWMutex mu:
the stored token and the derived client. Go nil pointers are none. -/
structure GoogleService where
  authToken : Option Token
  client : Option GClient
  deriving Repr, DecidableEq

/-- NewGoogleService: stores logger and config; authToken and client are
left at their zero value, nil. -/
def newGoogleService : GoogleService := { authToken := none, client := none }

/-- GetClient: takes the read lock and returns s.client. -/
def GoogleService.getClient (s : GoogleService) : Option GClient := s.client

/-- The store write performed (under the exclusive lock) at the end of both
authenticate and refreshToken: s.authToken = token; s.client =
oauth2Cfg.Client(ctx, token). -/
def GoogleService.writeToken (s : GoogleService) (t : Token) : GoogleService :=
  { s with authToken := some t, client := some (clientOf t) }

/-- refreshToken: reads the stored token; errors when it is nil or carries an
empty refresh token; otherwise consults the provider token endpoint (the
oracle argument stands for tokenSource.Token()); on provider failure returns
a wrapped error; on success writes the new token and derived client.
Returns the final state together with the returned error, if any. -/
def GoogleService.refreshToken (s : GoogleService)
    (provider : Except String Token) : GoogleService × Option String :=
  match s.authToken with
  | none => (s, some "no token available to refresh")
  | some currentToken =>
    if currentToken.refreshToken = "" then
      (s, some "no refresh token available")
    else
      match provider with
      | .error e => (s, some ("failed to refresh token: " ++ e))
      | .ok newToken => (s.writeToken newToken, none)

/-! The callback handler registered by startLocalServer. -/

/-- The two query parameters the handler reads from the redirect request;
a missing parameter reads as "" in Go (URL.Query().Get). -/
structure CallbackRequest where
  state : String
  code : String
  deriving Repr, DecidableEq

/-- A value sent by the handler on one of the two channels: an error on
errorChan or an authorization code on codeChan. -/
inductive HandlerMsg where
  | errMsg (e : String)
  | codeMsg (c : String)
  deriving Repr, DecidableEq

/-- The HTTP response written by the handler. http.Error writes the message
plus a newline with content type text/plain; charset=utf-8. -/
structure HandlerResponse where
  status : Nat
  contentType : String
  body : String
  deriving Repr, DecidableEq

/-- What one execution of the handler produces: the HTTP response to the
browser and the message sent on a channel. -/
structure HandlerOutcome where
  response : HandlerResponse
  msg : HandlerMsg
  deriving Repr, DecidableEq

/-- The anonymous handler function in startLocalServer: rejects a state
mismatch with 400, rejects a missing code with 400, otherwise answers 200
with the confirmation page and delivers the code. -/
def handleCallback (expectedState : String) (r : CallbackRequest) :
    HandlerOutcome :=
  if r.state ≠ expectedState then
    { response := ⟨400, "text/plain; charset=utf-8", "Invalid state parameter\n"⟩,
      msg := .errMsg "invalid state parameter" }
  else if r.code = "" then
    { response := ⟨400, "text/plain; charset=utf-8", "No code received\n"⟩,
      msg := .errMsg "no code received" }
  else
    { response := ⟨200, "text/html",
        "<h1>Authorization Successful</h1><p>You can close this window now.</p>"⟩,
      msg := .codeMsg r.code }

/-- How the select in startLocalServer resolves the first delivered message:
a code yields success, an error yields failure. -/
def resolveMsg : HandlerMsg → Except String String
  | .errMsg e => .error e
  | .codeMsg c => .ok c

/-- The result of the select when the first event is a delivered message
(some m) or the two-minute timer (none). -/
def selectResult (firstEvent : Option HandlerMsg) : Except String String :=
  match firstEvent with
  | some m => resolveMsg m
  | none => .error "timeout waiting for authorization"

/-- The tail of authenticate after startLocalServer resolves: a listener
error is wrapped and returned with the store untouched; otherwise the code
is exchanged at the provider token endpoint (the oracle argument stands for
oauth2Cfg.Exchange); exchange failure is returned with the store untouched;
on success the token and derived client are written. -/
def GoogleService.authenticateFinish (s : GoogleService)
    (listenerResult : Except String String)
    (exchange : String → Except String Token) : GoogleService × Option String :=
  match listenerResult with
  | .error e => (s, some ("failed to get authorization code: " ++ e))
  | .ok authCode =>
    match exchange authCode with
    | .error e => (s, some ("unable to exchange auth code: " ++ e))
    | .ok token => (s.writeToken token, none)

/-- The state nonce generated at the top of authenticate:
fmt.Sprintf("%d", time.Now().UnixNano()), the decimal rendering of the
current wall clock in nanoseconds. -/
def genState (nowUnixNano : Int) : String := toString nowUnixNano

/-! The request multiplexer and the lifecycle of one startLocalServer call.

startLocalServer registers its handler with http.HandleFunc, which operates
on the package-global http.DefaultServeMux; the server it creates is
http.Server with Addr only, whose nil Handler also means DefaultServeMux.
The mux is therefore modelled as process-global state threaded through every
listener instance, holding the set of registered patterns. -/

/-- net/http ServeMux registration: registering a pattern that is already
present panics (http: multiple registrations); otherwise it is added. The
error case models the panic. -/
def muxHandleFunc (mux : List String) (pat : String) :
    Except String (List String) :=
  if pat ∈ mux then .error ("http: multiple registrations for " ++ pat)
  else .ok (pat :: mux)

/-- Process-global resources touched by startLocalServer: the default
request multiplexer and whether the callback port is currently free. -/
structure ProcState where
  mux : List String
  portFree : Bool
  deriving Repr, DecidableEq

/-- One whole startLocalServer call: register the handler for pattern / on
the global default mux (a duplicate registration panics before anything else
happens), bind the configured port (ListenAndServe fails when it is taken),
run the select until its first event, and run the deferred server.Close,
which releases the port, before returning. The outer error is a panic; the
inner Except String String is the (code, error) return value. -/
def startLocalServerRun (p : ProcState) (firstEvent : Option HandlerMsg) :
    Except String (ProcState × Except String String) :=
  match muxHandleFunc p.mux "/" with
  | .error panicMsg => .error panicMsg
  | .ok mux2 =>
    if p.portFree then
      .ok ({ mux := mux2, portFree := true }, selectResult firstEvent)
    else
      .ok ({ mux := mux2, portFree := false },
        .error "listen: address already in use")

/-! Refresh scheduler timing. -/

/-- refreshTime computed by refreshTokenPeriodically, in seconds:
time.Until(expiry) - 5*time.Minute, that is expiry - now minus the
five-minute safety margin. -/
def refreshDelay (expiry now : Int) : Int := (expiry - now) - 5 * 60

/-- time.After(d) fires after d, or immediately when d is not positive:
the effective wait is max d 0. -/
def waitDuration (d : Int) : Int := max d 0

/-- The first n iterations of the refreshTokenPeriodically loop. Each
iteration reads the stored token under the read lock (nil terminates the
loop), sleeps until waitDuration (refreshDelay expiry now) has elapsed, and
calls refreshToken with the next provider outcome from the oracle list; the
loop body only logs a refresh error and then continues with the next
iteration. The context passed by Initialize is context.Background(), which
is never done, so the ctx.Done branch never fires and is not modelled.
Returns, per attempt, the absolute time of the attempt and whether it
failed. -/
def refreshLoop : Nat → GoogleService → Int → List (Except String Token) →
    List (Int × Bool)
  | 0, _, _, _ => []
  | Nat.succ n, s, now, outcomes =>
    match s.authToken with
    | none => []
    | some tok =>
      let t := now + waitDuration (refreshDelay tok.expiry now)
      let res := s.refreshToken (outcomes.headD (.error "network error"))
      (t, res.2.isSome) :: refreshLoop n res.1 t outcomes.tail

/-! A small-step model of the callback listener run: the two buffered
channels of capacity one, the handler goroutines delivering to them (one
goroutine per incoming request, blocking until its channel has room), the
two-minute timer, and the select in startLocalServer consuming the first
available event. Channels are never closed, matching the code. -/

instance {α β : Type} [DecidableEq α] [DecidableEq β] :
    DecidableEq (Except α β) := fun x y =>
  match x, y with
  | .ok a, .ok b =>
    if h : a = b then isTrue (by rw [h]) else isFalse (by simp [h])
  | .error a, .error b =>
    if h : a = b then isTrue (by rw [h]) else isFalse (by simp [h])
  | .ok _, .error _ => isFalse (by simp)
  | .error _, .ok _ => isFalse (by simp)

/-- One handler goroutine at its channel-send statement: the message it
sends and whether the send has completed. -/
structure HandlerTask where
  msg : HandlerMsg
  sent : Bool
  deriving Repr, DecidableEq

/-- The listener run state: contents of the two capacity-one buffered
channels, the handler goroutines, whether the two-minute timer has fired,
and the value the select resolved to, if it resolved already. -/
structure ListenerSys where
  codeChan : List String
  errorChan : List String
  handlers : List HandlerTask
  timerFired : Bool
  resolvedVal : Option (Except String String)
  deriving Repr, DecidableEq

/-- Scheduler labels: a handler attempts its send, the timer fires, or the
select consumes from codeChan, from errorChan, or takes the timeout branch. -/
inductive SysLabel where
  | handlerSend (i : Nat)
  | timerFire
  | selectCode
  | selectErr
  | selectTimeout
  deriving Repr, DecidableEq

/-- A handler goroutine is blocked when its send has not completed and its
target channel buffer is full: a send on a full buffered channel waits for
a receiver. -/
def ListenerSys.blocked (s : ListenerSys) (i : Nat) : Bool :=
  match s.handlers.get? i with
  | none => false
  | some h =>
    !h.sent &&
      match h.msg with
      | .codeMsg _ => decide (s.codeChan.length ≥ 1)
      | .errMsg _ => decide (s.errorChan.length ≥ 1)

/-- One scheduler step of the listener system. A step whose precondition
does not hold (a blocked send, a select branch whose channel is empty, a
select after resolution) leaves the state unchanged. -/
def ListenerSys.step (s : ListenerSys) : SysLabel → ListenerSys
  | .handlerSend i =>
    match s.handlers.get? i with
    | none => s
    | some h =>
      if h.sent then s
      else
        match h.msg with
        | .codeMsg c =>
          if s.codeChan.length ≥ 1 then s
          else { s with codeChan := s.codeChan ++ [c],
                        handlers := s.handlers.set i { h with sent := true } }
        | .errMsg e =>
          if s.errorChan.length ≥ 1 then s
          else { s with errorChan := s.errorChan ++ [e],
                        handlers := s.handlers.set i { h with sent := true } }
  | .timerFire => { s with timerFired := true }
  | .selectCode =>
    match s.resolvedVal, s.codeChan with
    | none, c :: rest => { s with codeChan := rest, resolvedVal := some (.ok c) }
    | _, _ => s
  | .selectErr =>
    match s.resolvedVal, s.errorChan with
    | none, e :: rest => { s with errorChan := rest, resolvedVal := some (.error e) }
    | _, _ => s
  | .selectTimeout =>
    match s.resolvedVal, s.timerFired with
    | none, true => { s with resolvedVal := some (.error "timeout waiting for authorization") }
    | _, _ => s

/-- Run the listener system along a schedule. -/
def ListenerSys.run (s : ListenerSys) (sched : List SysLabel) : ListenerSys :=
  sched.foldl ListenerSys.step s

/-- The initial listener state for a set of incoming requests against an
expected nonce: empty channels, one handler goroutine per request, timer
pending, select unresolved. -/
def listenerInit (expectedState : String) (reqs : List CallbackRequest) :
    ListenerSys :=
  { codeChan := [], errorChan := [],
    handlers := reqs.map (fun r => ⟨(handleCallback expectedState r).msg, false⟩),
    timerFired := false, resolvedVal := none }

/-! Interleaving model of the RWMutex-guarded store. The writer is the
exclusive-lock critical section that ends refreshToken (mu.Lock;
authToken = newToken; client = oauth2Cfg.Client(ctx, newToken); mu.Unlock),
one step per shared-memory access. A reader is a read-lock critical section
that reads both guarded fields. sync.RWMutex semantics: Lock waits until no
reader (and no writer) holds the lock; RLock waits while a writer holds it. -/

/-- Writer program counter: before mu.Lock, holding with nothing written,
holding with authToken written, holding with both fields written, after
mu.Unlock. -/
inductive WPc where
  | idle
  | locked
  | wroteToken
  | wroteBoth
  | unlocked
  deriving Repr, DecidableEq

/-- Reader program counter: before mu.RLock, holding before the first read,
holding having read authToken, holding having read both, after mu.RUnlock. -/
inductive RPc where
  | idle
  | locked
  | readToken
  | readBoth
  | unlocked
  deriving Repr, DecidableEq

/-- Whether the writer holds the exclusive lock at this pc. -/
def WPc.holds : WPc → Bool
  | .locked | .wroteToken | .wroteBoth => true
  | _ => false

/-- Whether a reader holds the read lock at this pc. -/
def RPc.holds : RPc → Bool
  | .locked | .readToken | .readBoth => true
  | _ => false

/-- One reader goroutine: its pc and the field values it observed. -/
structure ReaderTask where
  pc : RPc
  obsToken : Option (Option Token)
  obsClient : Option (Option GClient)
  deriving Repr, DecidableEq

/-- The store system: the guarded store, the writer pc and the readers. -/
structure StoreSys where
  store : GoogleService
  writerPc : WPc
  readers : List ReaderTask
  deriving Repr, DecidableEq

/-- One writer step, writing newTok into the store as refreshToken does. -/
def StoreSys.writerStep (sys : StoreSys) (newTok : Token) : StoreSys :=
  match sys.writerPc with
  | .idle =>
    if sys.readers.all (fun r => !r.pc.holds) then
      { sys with writerPc := .locked }
    else sys
  | .locked =>
    { sys with store := { sys.store with authToken := some newTok },
               writerPc := .wroteToken }
  | .wroteToken =>
    { sys with store := { sys.store with client := some (clientOf newTok) },
               writerPc := .wroteBoth }
  | .wroteBoth => { sys with writerPc := .unlocked }
  | .unlocked => sys

/-- One step of reader i: acquire the read lock when no writer holds the
lock, read authToken, read client, release. -/
def StoreSys.readerStep (sys : StoreSys) (i : Nat) : StoreSys :=
  match sys.readers.get? i with
  | none => sys
  | some r =>
    match r.pc with
    | .idle =>
      if sys.writerPc.holds then sys
      else { sys with readers := sys.readers.set i { r with pc := .locked } }
    | .locked =>
      let r2 := { r with pc := RPc.readToken, obsToken := some sys.store.authToken }
      { sys with readers := sys.readers.set i r2 }
    | .readToken =>
      let r2 := { r with pc := RPc.readBoth, obsClient := some sys.store.client }
      { sys with readers := sys.readers.set i r2 }
    | .readBoth =>
      { sys with readers := sys.readers.set i { r with pc := .unlocked } }
    | .unlocked => sys

/-- Scheduler label: the writer steps, or reader i steps. -/
inductive StoreLabel where
  | writer
  | reader (i : Nat)
  deriving Repr, DecidableEq

/-- One scheduler step of the store system. -/
def StoreSys.step (sys : StoreSys) (newTok : Token) : StoreLabel → StoreSys
  | .writer => sys.writerStep newTok
  | .reader i => sys.readerStep i

/-- Run the store system along a schedule. -/
def StoreSys.run (sys : StoreSys) (newTok : Token) (sched : List StoreLabel) :
    StoreSys :=
  sched.foldl (fun s l => s.step newTok l) sys

/-- Initial store system: store contents s0, writer before its lock, n
readers before theirs, nothing observed yet. -/
def storeInit (s0 : GoogleService) (n : Nat) : StoreSys :=
  { store := s0, writerPc := .idle,
    readers := List.replicate n ⟨.idle, none, none⟩ }

/-- A reader observation is consistent: the fully-old pair or the fully-new
pair, never a mixture. -/
def obsConsistent (s0 : GoogleService) (nt : Token) (r : ReaderTask) : Prop :=
  (r.obsToken = some s0.authToken ∧ r.obsClient = some s0.client) ∨
    (r.obsToken = some (some nt) ∧ r.obsClient = some (some (clientOf nt)))

/-- Invariant of a listener run whose incoming requests were one valid
callback (delivering a code) and one forged callback (delivering an error):
each capacity-one buffer stays empty until its unique sender has completed,
so neither sender ever finds its buffer full. -/
def scenarioInv (c e : String) (s : ListenerSys) : Prop :=
  ∃ b1 b2, s.handlers = [⟨.codeMsg c, b1⟩, ⟨.errMsg e, b2⟩] ∧
    (b1 = false → s.codeChan = []) ∧ (b2 = false → s.errorChan = [])

/-- The store contents as a function of the writer position: untouched
until the first write, token replaced after the first write, token and
client replaced after the second. -/
def storeAt (s0 : GoogleService) (nt : Token) : WPc → GoogleService
  | .idle => s0
  | .locked => s0
  | .wroteToken => { s0 with authToken := some nt }
  | .wroteBoth => s0.writeToken nt
  | .unlocked => s0.writeToken nt

/-- Per-reader invariant of the store system: a reader holding the read
lock excludes the writer; a reader that has read the token holds the
current token value; a reader past both reads holds a consistent pair. -/
def readerInv (s0 : GoogleService) (nt : Token) (sys : StoreSys)
    (r : ReaderTask) : Prop :=
  (r.pc.holds = true → sys.writerPc.holds = false) ∧
  (r.pc = .readToken → r.obsToken = some sys.store.authToken) ∧
  (r.pc = .readBoth ∨ r.pc = .unlocked → obsConsistent s0 nt r)

/-- Global invariant of the store system: the store contents are determined
by the writer position and every reader satisfies its invariant. -/
def storeInv (s0 : GoogleService) (nt : Token) (sys : StoreSys) : Prop :=
  sys.store = storeAt s0 nt sys.writerPc ∧
  ∀ r ∈ sys.readers, readerInv s0 nt sys r

/-! Theorems. -/

/-- refreshToken never removes the stored token: on every path the stored
token stays present (errors leave the store untouched, success stores the
new token). -/
theorem refreshToken_isSome (s : GoogleService) (pr : Except String Token)
    (h : s.authToken.isSome) : ((s.refreshToken pr).1).authToken.isSome := by
  unfold GoogleService.refreshToken
  match hs : s.authToken with
  | none => rw [hs] at h; simp at h
  | some tok =>
    by_cases he : tok.refreshToken = ""
    · simp [he, hs]
    · cases pr with
      | error e => simp [he, hs]
      | ok nt => simp [he, hs, GoogleService.writeToken]

/-- Helper: the client stored after the writes of a run is the one derived
from the last written token. -/
theorem foldl_writeToken_getClient (s : GoogleService) (toks : List Token) :
    (List.foldl GoogleService.writeToken s toks).getClient =
      (match toks.getLast? with
       | none => s.getClient
       | some t => some (clientOf t)) := by
  induction toks generalizing s with
  | nil => rfl
  | cons t ts ih =>
    cases ts with
    | nil => rfl
    | cons u us =>
      rw [List.foldl_cons, ih, List.getLast?_cons_cons]
      cases h : (u :: us).getLast? with
      | none => rw [List.getLast?_eq_none_iff] at h; cases h
      | some v => rfl

/-- C4: for every callback request whose state query parameter does not
equal the live nonce, the handler responds 400 with a plain-text reason
body, delivers the invalid-state error (and no success), authenticate fails
with the wrapped authorization error, and the credential store is left
unmodified. -/
theorem C4_invalid_state_rejected (expected : String) (r : CallbackRequest)
    (s : GoogleService) (exchange : String → Except String Token)
    (anyCode : String) (hmismatch : r.state ≠ expected) :
    (handleCallback expected r).response.status = 400 ∧
    (handleCallback expected r).response.contentType = "text/plain; charset=utf-8" ∧
    (handleCallback expected r).response.body = "Invalid state parameter\n" ∧
    (handleCallback expected r).msg = .errMsg "invalid state parameter" ∧
    (handleCallback expected r).msg ≠ .codeMsg anyCode ∧
    s.authenticateFinish (resolveMsg (handleCallback expected r).msg) exchange
      = (s, some "failed to get authorization code: invalid state parameter") := by
  have h1 : handleCallback expected r =
      { response := ⟨400, "text/plain; charset=utf-8", "Invalid state parameter\n"⟩,
        msg := .errMsg "invalid state parameter" } := by
    unfold handleCallback
    rw [if_pos hmismatch]
  rw [h1]
  exact ⟨rfl, rfl, rfl, rfl, by simp, rfl⟩

/-- C4 witness: an evaluation at a concrete forged request. -/
theorem C4_invalid_state_rejected_witness :
    ("forged" ≠ "expected") ∧
    ((handleCallback "expected" ⟨"forged", "thecode"⟩).response.status = 400 ∧
     (handleCallback "expected" ⟨"forged", "thecode"⟩).response.contentType
        = "text/plain; charset=utf-8" ∧
     (handleCallback "expected" ⟨"forged", "thecode"⟩).response.body
        = "Invalid state parameter\n" ∧
     (handleCallback "expected" ⟨"forged", "thecode"⟩).msg
        = .errMsg "invalid state parameter" ∧
     (handleCallback "expected" ⟨"forged", "thecode"⟩).msg ≠ .codeMsg "thecode" ∧
     GoogleService.authenticateFinish newGoogleService
        (resolveMsg (handleCallback "expected" ⟨"forged", "thecode"⟩).msg)
        (fun c => .ok ⟨c, "r", 0⟩)
       = (newGoogleService, some "failed to get authorization code: invalid state parameter")) :=
  ⟨by decide,
   C4_invalid_state_rejected "expected" ⟨"forged", "thecode"⟩ newGoogleService
     (fun c => .ok ⟨c, "r", 0⟩) "thecode" (by decide)⟩

/-- C7: the scheduler wake delay is expiry minus now minus the five-minute
safety margin; a nonpositive delay wakes immediately; and for a credential
expiring at now plus 330 seconds, the first refresh attempt of the loop
happens at now plus 30 seconds, inside the 25-to-35 second window. -/
theorem C7_wake_delay (expiry now : Int) (s : GoogleService) (tok : Token)
    (outs : List (Except String Token))
    (htok : s.authToken = some tok) (hexp : tok.expiry = now + 330) :
    refreshDelay expiry now = expiry - now - 5 * 60 ∧
    (refreshDelay expiry now ≤ 0 → waitDuration (refreshDelay expiry now) = 0) ∧
    (refreshLoop 1 s now outs).map Prod.fst = [now + 30] ∧
    now + 25 ≤ now + 30 ∧ now + 30 ≤ now + 35 := by
  refine ⟨rfl, fun h => ?_, ?_, by omega, by omega⟩
  · unfold waitDuration; omega
  · simp only [refreshLoop, htok, hexp, refreshDelay, waitDuration]
    norm_num

/-- C7 witness: evaluation at a concrete credential expiring 330 seconds
from time 1000. -/
theorem C7_wake_delay_witness :
    (refreshDelay 1330 1000 = 1330 - 1000 - 5 * 60 ∧
     (refreshDelay 1330 1000 ≤ 0 → waitDuration (refreshDelay 1330 1000) = 0) ∧
     (refreshLoop 1 { authToken := some ⟨"a", "r", 1330⟩, client := none } 1000 []).map
        Prod.fst = [1000 + 30] ∧
     (1000 : Int) + 25 ≤ 1000 + 30 ∧ (1000 : Int) + 30 ≤ 1000 + 35) :=
  C7_wake_delay 1330 1000 { authToken := some ⟨"a", "r", 1330⟩, client := none }
    ⟨"a", "r", 1330⟩ [] rfl (by norm_num)

/-- C8 counterexample: the nonce is the decimal rendering of the wall clock
in nanoseconds, hence a deterministic function of the clock: two
authorization attempts reading the same clock value produce the same nonce,
and an observer knowing the clock value predicts the nonce exactly. -/
theorem C8_counterexample :
    genState 1700000000000000000 = genState 1700000000000000000 ∧
    genState 1700000000000000000 = "1700000000000000000" := by
  exact ⟨rfl, rfl⟩

/-- C8 amended: the nonce generated by authenticate is the decimal rendering
of time.Now().UnixNano(): it is fresh per attempt only insofar as the clock
value differs, and it is a deterministic, predictable function of the clock
(equal clock readings give equal nonces). -/
theorem C8_nonce_deterministic (t1 t2 : Int) (h : t1 = t2) :
    genState t1 = toString t1 ∧ genState t1 = genState t2 := by
  subst h; exact ⟨rfl, rfl⟩

/-- C8 amended witness: evaluation at a concrete clock value. -/
theorem C8_nonce_deterministic_witness :
    genState 42 = toString (42 : Int) ∧ genState 42 = genState 42 :=
  C8_nonce_deterministic 42 42 rfl

/-- C9: before any completed write the accessor GetClient returns nil, and
after any sequence of completed writes it returns exactly the client
derived from the most recent one. -/
theorem C9_getClient_last_write (toks : List Token) :
    GoogleService.getClient newGoogleService = none ∧
    (List.foldl GoogleService.writeToken newGoogleService toks).getClient =
      (match toks.getLast? with
       | none => none
       | some t => some (clientOf t)) := by
  refine ⟨rfl, ?_⟩
  rw [foldl_writeToken_getClient]
  cases toks.getLast? <;> rfl

/-- C10: whenever refreshToken returns an error (nil stored token, empty
refresh token, or provider failure) the stored credential and derived
client are left exactly as they were; the store is written only on the
success path. -/
theorem C10_refresh_error_preserves_store (s : GoogleService)
    (pr : Except String Token) (tok nt : Token) (e : String) :
    ((s.refreshToken pr).2.isSome → (s.refreshToken pr).1 = s) ∧
    (s.authToken = none →
      s.refreshToken pr = (s, some "no token available to refresh")) ∧
    (s.authToken = some tok → tok.refreshToken = "" →
      s.refreshToken pr = (s, some "no refresh token available")) ∧
    (s.authToken = some tok → tok.refreshToken ≠ "" → pr = .error e →
      s.refreshToken pr = (s, some ("failed to refresh token: " ++ e))) ∧
    (s.authToken = some tok → tok.refreshToken ≠ "" → pr = .ok nt →
      s.refreshToken pr = (s.writeToken nt, none)) := by
  obtain ⟨atk, cl⟩ := s
  cases atk with
  | none => simp [GoogleService.refreshToken]
  | some tok2 =>
    by_cases he : tok2.refreshToken = ""
    · cases pr <;> simp [GoogleService.refreshToken, he] <;> intro h <;>
        subst h <;> simp [he]
    · cases pr with
      | error a =>
        simp [GoogleService.refreshToken, he]
        constructor
        · intro h1 h2
          subst h1
          exact absurd h2 he
        · intro h1 h2 h3
          subst h3
          rfl
      | ok a =>
        simp [GoogleService.refreshToken, he]
        constructor
        · intro h1
          subst h1
          exact he
        · intro h1 h2 h3
          subst h3
          rfl

/-- C10 witness: evaluation at a concrete store whose token has an empty
refresh token, and at a provider failure. -/
theorem C10_refresh_error_preserves_store_witness :
    (((⟨some ⟨"a", "", 50⟩, none⟩ : GoogleService).refreshToken
        (.error "net")).2.isSome →
      ((⟨some ⟨"a", "", 50⟩, none⟩ : GoogleService).refreshToken
        (.error "net")).1 = ⟨some ⟨"a", "", 50⟩, none⟩) ∧
    ((⟨some ⟨"a", "", 50⟩, none⟩ : GoogleService).authToken = none →
      (⟨some ⟨"a", "", 50⟩, none⟩ : GoogleService).refreshToken (.error "net") =
        (⟨some ⟨"a", "", 50⟩, none⟩, some "no token available to refresh")) ∧
    ((⟨some ⟨"a", "", 50⟩, none⟩ : GoogleService).authToken = some ⟨"a", "", 50⟩ →
      Token.refreshToken ⟨"a", "", 50⟩ = "" →
      (⟨some ⟨"a", "", 50⟩, none⟩ : GoogleService).refreshToken (.error "net") =
        (⟨some ⟨"a", "", 50⟩, none⟩, some "no refresh token available")) ∧
    ((⟨some ⟨"a", "", 50⟩, none⟩ : GoogleService).authToken = some ⟨"a", "", 50⟩ →
      Token.refreshToken ⟨"a", "", 50⟩ ≠ "" →
      (Except.error "net" : Except String Token) = .error "net" →
      (⟨some ⟨"a", "", 50⟩, none⟩ : GoogleService).refreshToken (.error "net") =
        (⟨some ⟨"a", "", 50⟩, none⟩, some ("failed to refresh token: " ++ "net"))) ∧
    ((⟨some ⟨"a", "", 50⟩, none⟩ : GoogleService).authToken = some ⟨"a", "", 50⟩ →
      Token.refreshToken ⟨"a", "", 50⟩ ≠ "" →
      (Except.error "net" : Except String Token) = .ok ⟨"n", "nr", 99⟩ →
      (⟨some ⟨"a", "", 50⟩, none⟩ : GoogleService).refreshToken (.error "net") =
        (GoogleService.writeToken ⟨some ⟨"a", "", 50⟩, none⟩ ⟨"n", "nr", 99⟩, none)) :=
  C10_refresh_error_preserves_store ⟨some ⟨"a", "", 50⟩, none⟩ (.error "net")
    ⟨"a", "", 50⟩ ⟨"n", "nr", 99⟩ "net"

/-- C1 counterexample: a loop run in which the first background refresh
attempt fails and the scheduler nevertheless makes a second attempt
immediately (the loop body only logs the error and continues), refuting
that a refresh failure terminates the loop and that no further automatic
refresh attempt ever occurs. -/
theorem C1_counterexample :
    refreshLoop 2 ⟨some ⟨"a", "r", 100⟩, none⟩ 0
      [.error "boom", .error "boom"] = [(0, true), (0, true)] := by
  decide

/-- C1 amended: the scheduler loop never terminates while a token is
stored: every iteration makes a refresh attempt regardless of how many
previous attempts failed (a failure is logged and the loop continues, with
an unchanged expiry and hence an immediate retry). -/
theorem C1_refresh_loop_continues (n : Nat) (s : GoogleService) (now : Int)
    (outs : List (Except String Token)) (h : s.authToken.isSome) :
    (refreshLoop n s now outs).length = n := by
  induction n generalizing s now outs with
  | zero => rfl
  | succ n ih =>
    cases hs : s.authToken with
    | none => rw [hs] at h; simp at h
    | some tok =>
      have h2 : ((s.refreshToken (outs.headD (.error "network error"))).1).authToken.isSome :=
        refreshToken_isSome s _ h
      simp only [refreshLoop, hs, List.length_cons]
      rw [ih _ _ _ h2]

/-- C1 amended witness: two refresh failures in a row still give two
attempts. -/
theorem C1_refresh_loop_continues_witness :
    (refreshLoop 2 ⟨some ⟨"a", "r", 100⟩, none⟩ 0
      [.error "boom", .error "boom"]).length = 2 :=
  C1_refresh_loop_continues 2 ⟨some ⟨"a", "r", 100⟩, none⟩ 0
    [.error "boom", .error "boom"] (by decide)

/-- C2 counterexample: the handler is registered with http.HandleFunc on
the process-global default request multiplexer, so a first listener
registration succeeds and a second listener instance collides with it and
panics, refuting that every listener instance has its own private
multiplexer on which listeners never collide. -/
theorem C2_counterexample :
    muxHandleFunc [] "/" = .ok ["/"] ∧
    muxHandleFunc ["/"] "/" = .error "http: multiple registrations for /" := by
  exact ⟨rfl, rfl⟩

/-- C2 amended: every Callback Listener registers its handler on the shared
process-global default request multiplexer: the registration succeeds
exactly when no previous listener has registered the root pattern, and any
second listener instance panics with a duplicate-registration error. -/
theorem C2_registration_on_global_mux (mux : List String) :
    ("/" ∈ mux →
      muxHandleFunc mux "/" = .error "http: multiple registrations for /") ∧
    ("/" ∉ mux → muxHandleFunc mux "/" = .ok ("/" :: mux)) := by
  unfold muxHandleFunc
  constructor
  · intro h; rw [if_pos h]; rfl
  · intro h; rw [if_neg h]

/-- C2 amended witness: registration panics on a mux already holding the
root pattern and succeeds on an empty mux. -/
theorem C2_registration_on_global_mux_witness :
    muxHandleFunc ["/"] "/" = .error "http: multiple registrations for /" ∧
    muxHandleFunc [] "/" = .ok ["/"] :=
  ⟨(C2_registration_on_global_mux ["/"]).1 (by decide),
   (C2_registration_on_global_mux []).2 (by decide)⟩

/-- C6 counterexample: a timed-out startLocalServer call shuts its server
down and leaves the port free, yet a new listener started the same way
panics on the duplicate global-mux registration before ever binding the
port, refuting that a new listener can immediately bind the same port. -/
theorem C6_counterexample :
    startLocalServerRun ⟨[], true⟩ none =
      .ok (⟨["/"], true⟩, .error "timeout waiting for authorization") ∧
    startLocalServerRun ⟨["/"], true⟩ none =
      .error "http: multiple registrations for /" := by
  exact ⟨rfl, rfl⟩

/-- C6 amended: on every exit path of the callback wait the server is shut
down before the wait returns and the listening port is free immediately
afterward, and a wait with no callback before the deadline returns the
timeout error; however a second listener created by startLocalServer panics
on the duplicate registration instead of binding the freed port. -/
theorem C6_port_released_on_exit (p : ProcState) (ev ev2 : Option HandlerMsg)
    (st : ProcState) (res : Except String String)
    (hfree : p.portFree = true)
    (hrun : startLocalServerRun p ev = .ok (st, res)) :
    st.portFree = true ∧
    (ev = none → res = .error "timeout waiting for authorization") ∧
    startLocalServerRun st ev2 = .error "http: multiple registrations for /" := by
  by_cases hm : "/" ∈ p.mux
  · unfold startLocalServerRun muxHandleFunc at hrun
    rw [if_pos hm] at hrun
    cases hrun
  · unfold startLocalServerRun muxHandleFunc at hrun
    rw [if_neg hm] at hrun
    simp only [hfree, if_true] at hrun
    rw [Except.ok.injEq, Prod.mk.injEq] at hrun
    obtain ⟨hst, hres⟩ := hrun
    refine ⟨?_, ?_, ?_⟩
    · rw [← hst]
    · intro hev; rw [← hres, hev]; rfl
    · unfold startLocalServerRun muxHandleFunc
      rw [← hst]
      simp

/-- C6 amended witness: evaluation of a timed-out wait on a fresh process
state followed by a second listener attempt. -/
theorem C6_port_released_on_exit_witness :
    (ProcState.portFree ⟨["/"], true⟩ = true ∧
     ((none : Option HandlerMsg) = none →
       (Except.error "timeout waiting for authorization" :
         Except String String) = .error "timeout waiting for authorization") ∧
     startLocalServerRun ⟨["/"], true⟩ none =
       .error "http: multiple registrations for /") :=
  C6_port_released_on_exit ⟨[], true⟩ none none ⟨["/"], true⟩
    (.error "timeout waiting for authorization") rfl (by decide)

/-- Helper: the writer step preserves the store invariant. -/
theorem storeInv_writerStep (s0 : GoogleService) (nt : Token) (sys : StoreSys)
    (h : storeInv s0 nt sys) : storeInv s0 nt (sys.writerStep nt) := by
  obtain ⟨hst, hrd⟩ := h
  cases hw : sys.writerPc with
  | idle =>
    by_cases hg : sys.readers.all (fun r => !r.pc.holds)
    · have heq : sys.writerStep nt = { sys with writerPc := .locked } := by
        unfold StoreSys.writerStep
        rw [hw]
        simp [hg]
      rw [heq]
      refine ⟨by rw [hst, hw]; rfl, ?_⟩
      intro r hr
      obtain ⟨h1, h2, h3⟩ := hrd r hr
      have hnh : r.pc.holds = false := by
        simpa using List.all_eq_true.mp hg r hr
      refine ⟨fun hh => ?_, fun hpc => ?_, fun hor => h3 hor⟩
      · rw [hh] at hnh; cases hnh
      · have hth : r.pc.holds = true := by rw [hpc]; rfl
        rw [hth] at hnh; cases hnh
    · have heq : sys.writerStep nt = sys := by
        unfold StoreSys.writerStep
        rw [hw]
        simp [hg]
      rw [heq]; exact ⟨hst, hrd⟩
  | locked =>
    have heq : sys.writerStep nt =
        { sys with store := { sys.store with authToken := some nt },
                   writerPc := .wroteToken } := by
      unfold StoreSys.writerStep
      rw [hw]
    rw [heq]
    have hnr : ∀ r ∈ sys.readers, r.pc.holds = false := by
      intro r hr
      by_contra hc
      rw [Bool.not_eq_false] at hc
      have hwh := (hrd r hr).1 hc
      rw [hw] at hwh; cases hwh
    refine ⟨by rw [hst, hw]; rfl, ?_⟩
    intro r hr
    obtain ⟨h1, h2, h3⟩ := hrd r hr
    have hnh := hnr r hr
    refine ⟨fun hh => ?_, fun hpc => ?_, fun hor => h3 hor⟩
    · rw [hh] at hnh; cases hnh
    · have hth : r.pc.holds = true := by rw [hpc]; rfl
      rw [hth] at hnh; cases hnh
  | wroteToken =>
    have heq : sys.writerStep nt =
        { sys with store := { sys.store with client := some (clientOf nt) },
                   writerPc := .wroteBoth } := by
      unfold StoreSys.writerStep
      rw [hw]
    rw [heq]
    have hnr : ∀ r ∈ sys.readers, r.pc.holds = false := by
      intro r hr
      by_contra hc
      rw [Bool.not_eq_false] at hc
      have hwh := (hrd r hr).1 hc
      rw [hw] at hwh; cases hwh
    refine ⟨by rw [hst, hw]; rfl, ?_⟩
    intro r hr
    obtain ⟨h1, h2, h3⟩ := hrd r hr
    have hnh := hnr r hr
    refine ⟨fun hh => ?_, fun hpc => ?_, fun hor => h3 hor⟩
    · rw [hh] at hnh; cases hnh
    · have hth : r.pc.holds = true := by rw [hpc]; rfl
      rw [hth] at hnh; cases hnh
  | wroteBoth =>
    have heq : sys.writerStep nt = { sys with writerPc := .unlocked } := by
      unfold StoreSys.writerStep
      rw [hw]
    rw [heq]
    have hnr : ∀ r ∈ sys.readers, r.pc.holds = false := by
      intro r hr
      by_contra hc
      rw [Bool.not_eq_false] at hc
      have hwh := (hrd r hr).1 hc
      rw [hw] at hwh; cases hwh
    refine ⟨by rw [hst, hw]; rfl, ?_⟩
    intro r hr
    obtain ⟨h1, h2, h3⟩ := hrd r hr
    have hnh := hnr r hr
    refine ⟨fun hh => rfl, fun hpc => ?_, fun hor => h3 hor⟩
    have hth : r.pc.holds = true := by rw [hpc]; rfl
    rw [hth] at hnh; cases hnh
  | unlocked =>
    have heq : sys.writerStep nt = sys := by
      unfold StoreSys.writerStep
      rw [hw]
    rw [heq]; exact ⟨hst, hrd⟩

/-- Helper: a reader step preserves the store invariant. -/
theorem storeInv_readerStep (s0 : GoogleService) (nt : Token) (sys : StoreSys)
    (i : Nat) (h : storeInv s0 nt sys) : storeInv s0 nt (sys.readerStep i) := by
  obtain ⟨hst, hrd⟩ := h
  cases hg : sys.readers.get? i with
  | none =>
    have heq : sys.readerStep i = sys := by
      unfold StoreSys.readerStep
      rw [hg]
    rw [heq]; exact ⟨hst, hrd⟩
  | some r =>
    have hmem : r ∈ sys.readers := by
      have hg2 := hg
      rw [List.get?_eq_getElem?] at hg2
      obtain ⟨hlt, hv⟩ := List.getElem?_eq_some.mp hg2
      exact hv ▸ List.getElem_mem hlt
    obtain ⟨h1, h2, h3⟩ := hrd r hmem
    obtain ⟨rpc, rot, roc⟩ := r
    cases rpc with
    | idle =>
      by_cases hwh : sys.writerPc.holds = true
      · have heq : sys.readerStep i = sys := by
          unfold StoreSys.readerStep
          rw [hg]
          simp [hwh]
        rw [heq]; exact ⟨hst, hrd⟩
      · have hwh2 : sys.writerPc.holds = false := by
          rw [Bool.not_eq_true] at hwh; exact hwh
        have heq : sys.readerStep i = { sys with readers := sys.readers.set i ⟨.locked, rot, roc⟩ } := by
          unfold StoreSys.readerStep
          rw [hg]
          simp [hwh2]
        rw [heq]
        refine ⟨hst, ?_⟩
        intro rr hrr
        rcases List.mem_or_eq_of_mem_set hrr with hin | hq
        · exact hrd rr hin
        · subst hq
          exact ⟨fun _ => hwh2, fun hp2 => (by cases hp2),
            fun hor => (by rcases hor with hp2 | hp2 <;> cases hp2)⟩
    | locked =>
      have hwnh : sys.writerPc.holds = false := h1 rfl
      have heq : sys.readerStep i = { sys with readers := sys.readers.set i ⟨.readToken, some sys.store.authToken, roc⟩ } := by
        unfold StoreSys.readerStep
        rw [hg]
      rw [heq]
      refine ⟨hst, ?_⟩
      intro rr hrr
      rcases List.mem_or_eq_of_mem_set hrr with hin | hq
      · exact hrd rr hin
      · subst hq
        exact ⟨fun _ => hwnh, fun _ => rfl,
          fun hor => (by rcases hor with hp2 | hp2 <;> cases hp2)⟩
    | readToken =>
      have hwnh : sys.writerPc.holds = false := h1 rfl
      have hobs : rot = some sys.store.authToken := h2 rfl
      have heq : sys.readerStep i = { sys with readers := sys.readers.set i ⟨.readBoth, rot, some sys.store.client⟩ } := by
        unfold StoreSys.readerStep
        rw [hg]
      rw [heq]
      refine ⟨hst, ?_⟩
      intro rr hrr
      rcases List.mem_or_eq_of_mem_set hrr with hin | hq
      · exact hrd rr hin
      · subst hq
        refine ⟨fun _ => hwnh, fun hp2 => (by cases hp2), fun _ => ?_⟩
        cases hw : sys.writerPc with
        | idle =>
          rw [hw] at hst
          simp only [storeAt] at hst
          left
          constructor
          · rw [hobs, hst]
          · rw [hst]
        | locked => rw [hw] at hwnh; cases hwnh
        | wroteToken => rw [hw] at hwnh; cases hwnh
        | wroteBoth => rw [hw] at hwnh; cases hwnh
        | unlocked =>
          rw [hw] at hst
          simp only [storeAt] at hst
          right
          constructor
          · rw [hobs, hst]; rfl
          · rw [hst]; rfl
    | readBoth =>
      have hcons : obsConsistent s0 nt ⟨.readBoth, rot, roc⟩ := h3 (Or.inl rfl)
      have heq : sys.readerStep i = { sys with readers := sys.readers.set i ⟨.unlocked, rot, roc⟩ } := by
        unfold StoreSys.readerStep
        rw [hg]
      rw [heq]
      refine ⟨hst, ?_⟩
      intro rr hrr
      rcases List.mem_or_eq_of_mem_set hrr with hin | hq
      · exact hrd rr hin
      · subst hq
        exact ⟨fun hh => (by cases hh), fun hp2 => (by cases hp2), fun _ => hcons⟩
    | unlocked =>
      have heq : sys.readerStep i = sys := by
        unfold StoreSys.readerStep
        rw [hg]
      rw [heq]; exact ⟨hst, hrd⟩


/-- Helper: every step of the store system preserves the invariant. -/
theorem storeInv_step (s0 : GoogleService) (nt : Token) (sys : StoreSys)
    (l : StoreLabel) (h : storeInv s0 nt sys) :
    storeInv s0 nt (sys.step nt l) := by
  cases l with
  | writer => exact storeInv_writerStep s0 nt sys h
  | reader i => exact storeInv_readerStep s0 nt sys i h

/-- Helper: the invariant holds along every schedule. -/
theorem storeInv_run (s0 : GoogleService) (nt : Token) (sys : StoreSys)
    (sched : List StoreLabel) (h : storeInv s0 nt sys) :
    storeInv s0 nt (sys.run nt sched) := by
  induction sched generalizing sys with
  | nil => exact h
  | cons l ls ih => exact ih _ (storeInv_step s0 nt sys l h)

/-- C3: the store update is atomic under concurrent readers: for any number
of readers and any interleaving of one updating writer with them, every
reader that has completed both of its reads observed either the fully-old
credential/client pair or the fully-new one, never a mixture. -/
theorem C3_update_atomic (s0 : GoogleService) (nt : Token) (n : Nat)
    (sched : List StoreLabel) (r : ReaderTask)
    (hr : r ∈ (StoreSys.run (storeInit s0 n) nt sched).readers)
    (hdone : r.pc = .readBoth ∨ r.pc = .unlocked) :
    obsConsistent s0 nt r := by
  have hinit : storeInv s0 nt (storeInit s0 n) := by
    refine ⟨rfl, ?_⟩
    intro rr hrr
    have hq : rr = ⟨.idle, none, none⟩ := List.eq_of_mem_replicate hrr
    subst hq
    exact ⟨fun hh => (by cases hh), fun hh => (by cases hh),
      fun hor => by rcases hor with hh | hh <;> cases hh⟩
  exact (((storeInv_run s0 nt _ sched hinit).2) r hr).2.2 hdone

/-- C3 witness: a schedule in which one reader runs its whole critical
section before the writer, observing the fully-old pair. -/
theorem C3_update_atomic_witness :
    obsConsistent newGoogleService ⟨"n", "nr", 9⟩
      ⟨.unlocked, some none, some none⟩ :=
  C3_update_atomic newGoogleService ⟨"n", "nr", 9⟩ 1
    [.reader 0, .reader 0, .reader 0, .reader 0, .writer, .writer,
      .writer, .writer]
    ⟨.unlocked, some none, some none⟩ (by decide) (Or.inr rfl)

/-- C5 counterexample: two forged callbacks against a timed-out listener.
The first forged message fills the capacity-one error buffer; after the
select resolves by timeout, the second forged handler finds the buffer full
and its send blocks waiting for a reader — and it stays blocked under
further scheduling, because nothing ever receives after the select has
resolved. This refutes that the handler goroutine never blocks waiting for
a reader when one or more late requests arrive. -/
theorem C5_counterexample :
    ((listenerInit "s" [⟨"x", "c"⟩, ⟨"y", "c"⟩]).run
        [.handlerSend 0, .timerFire, .selectTimeout, .handlerSend 1]).blocked 1
      = true ∧
    ((listenerInit "s" [⟨"x", "c"⟩, ⟨"y", "c"⟩]).run
        [.handlerSend 0, .timerFire, .selectTimeout, .handlerSend 1]).resolvedVal
      = some (.error "timeout waiting for authorization") ∧
    ((listenerInit "s" [⟨"x", "c"⟩, ⟨"y", "c"⟩]).run
        ([.handlerSend 0, .timerFire, .selectTimeout, .handlerSend 1] ++
          [.selectErr, .selectCode, .handlerSend 1, .handlerSend 1])).blocked 1
      = true := by
  decide

/-- Helper: every step preserves the two-request scenario invariant. -/
theorem scenarioInv_step (c e : String) (s : ListenerSys) (l : SysLabel)
    (h : scenarioInv c e s) : scenarioInv c e (s.step l) := by
  obtain ⟨b1, b2, hh, h1, h2⟩ := h
  cases l with
  | timerFire => exact ⟨b1, b2, hh, h1, h2⟩
  | selectTimeout =>
    cases hr : s.resolvedVal with
    | none =>
      cases ht : s.timerFired with
      | true =>
        have heq : s.step .selectTimeout = { s with resolvedVal := some (.error "timeout waiting for authorization") } := by
          unfold ListenerSys.step
          rw [hr, ht]
        rw [heq]; exact ⟨b1, b2, hh, h1, h2⟩
      | false =>
        have heq : s.step .selectTimeout = s := by
          unfold ListenerSys.step
          rw [hr, ht]
        rw [heq]; exact ⟨b1, b2, hh, h1, h2⟩
    | some r =>
      cases ht : s.timerFired with
      | true =>
        have heq : s.step .selectTimeout = s := by
          unfold ListenerSys.step
          rw [hr, ht]
        rw [heq]; exact ⟨b1, b2, hh, h1, h2⟩
      | false =>
        have heq : s.step .selectTimeout = s := by
          unfold ListenerSys.step
          rw [hr, ht]
        rw [heq]; exact ⟨b1, b2, hh, h1, h2⟩
  | selectCode =>
    cases hr : s.resolvedVal with
    | none =>
      cases hcc : s.codeChan with
      | nil =>
        have heq : s.step .selectCode = s := by
          unfold ListenerSys.step
          rw [hr, hcc]
        rw [heq]; exact ⟨b1, b2, hh, h1, h2⟩
      | cons x rest =>
        have heq : s.step .selectCode = { s with codeChan := rest, resolvedVal := some (.ok x) } := by
          unfold ListenerSys.step
          rw [hr, hcc]
        rw [heq]
        refine ⟨b1, b2, hh, fun hb => ?_, h2⟩
        have hold := h1 hb
        rw [hcc] at hold
        cases hold
    | some r =>
      cases hcc : s.codeChan with
      | nil =>
        have heq : s.step .selectCode = s := by
          unfold ListenerSys.step
          rw [hr, hcc]
        rw [heq]; exact ⟨b1, b2, hh, h1, h2⟩
      | cons x rest =>
        have heq : s.step .selectCode = s := by
          unfold ListenerSys.step
          rw [hr, hcc]
        rw [heq]; exact ⟨b1, b2, hh, h1, h2⟩
  | selectErr =>
    cases hr : s.resolvedVal with
    | none =>
      cases hec : s.errorChan with
      | nil =>
        have heq : s.step .selectErr = s := by
          unfold ListenerSys.step
          rw [hr, hec]
        rw [heq]; exact ⟨b1, b2, hh, h1, h2⟩
      | cons x rest =>
        have heq : s.step .selectErr = { s with errorChan := rest, resolvedVal := some (.error x) } := by
          unfold ListenerSys.step
          rw [hr, hec]
        rw [heq]
        refine ⟨b1, b2, hh, h1, fun hb => ?_⟩
        have hold := h2 hb
        rw [hec] at hold
        cases hold
    | some r =>
      cases hec : s.errorChan with
      | nil =>
        have heq : s.step .selectErr = s := by
          unfold ListenerSys.step
          rw [hr, hec]
        rw [heq]; exact ⟨b1, b2, hh, h1, h2⟩
      | cons x rest =>
        have heq : s.step .selectErr = s := by
          unfold ListenerSys.step
          rw [hr, hec]
        rw [heq]; exact ⟨b1, b2, hh, h1, h2⟩
  | handlerSend i =>
    match i with
    | 0 =>
      have hg : s.handlers.get? 0 = some ⟨.codeMsg c, b1⟩ := by rw [hh]; rfl
      cases b1 with
      | true =>
        have heq : s.step (.handlerSend 0) = s := by
          simp only [ListenerSys.step]
          rw [hg]
          rfl
        rw [heq]; exact ⟨true, b2, hh, fun hb => (by cases hb), h2⟩
      | false =>
        have hc0 : s.codeChan = [] := h1 rfl
        have heq : s.step (.handlerSend 0) = { s with codeChan := [c], handlers := s.handlers.set 0 ⟨.codeMsg c, true⟩ } := by
          simp only [ListenerSys.step]
          rw [hg, hc0]
          rfl
        rw [heq]
        refine ⟨true, b2, ?_, fun hb => (by cases hb), h2⟩
        rw [hh]
        rfl
    | 1 =>
      have hg : s.handlers.get? 1 = some ⟨.errMsg e, b2⟩ := by rw [hh]; rfl
      cases b2 with
      | true =>
        have heq : s.step (.handlerSend 1) = s := by
          simp only [ListenerSys.step]
          rw [hg]
          rfl
        rw [heq]; exact ⟨b1, true, hh, h1, fun hb => (by cases hb)⟩
      | false =>
        have he0 : s.errorChan = [] := h2 rfl
        have heq : s.step (.handlerSend 1) = { s with errorChan := [e], handlers := s.handlers.set 1 ⟨.errMsg e, true⟩ } := by
          simp only [ListenerSys.step]
          rw [hg, he0]
          rfl
        rw [heq]
        refine ⟨b1, true, ?_, h1, fun hb => (by cases hb)⟩
        rw [hh]
        rfl
    | Nat.succ (Nat.succ k) =>
      have hg : s.handlers.get? (k + 2) = none := by rw [hh]; rfl
      have heq : s.step (.handlerSend (k + 2)) = s := by
        simp only [ListenerSys.step]
        rw [hg]
      rw [heq]; exact ⟨b1, b2, hh, h1, h2⟩

/-- Helper: the scenario invariant holds along every schedule. -/
theorem scenarioInv_run (c e : String) (sched : List SysLabel)
    (s : ListenerSys) (h : scenarioInv c e s) : scenarioInv c e (s.run sched) := by
  induction sched generalizing s with
  | nil => exact h
  | cons l ls ih => exact ih _ (scenarioInv_step c e s l h)

/-- Helper: in a state satisfying the scenario invariant, no handler
goroutine is blocked: each buffer is empty until its only sender completes. -/
theorem scenarioInv_not_blocked (c e : String) (s : ListenerSys)
    (h : scenarioInv c e s) (i : Nat) : s.blocked i = false := by
  obtain ⟨b1, b2, hh, h1, h2⟩ := h
  match i with
  | 0 =>
    have hg : s.handlers.get? 0 = some ⟨.codeMsg c, b1⟩ := by rw [hh]; rfl
    cases b1 with
    | true =>
      unfold ListenerSys.blocked
      rw [hg]
      rfl
    | false =>
      have hc0 : s.codeChan = [] := h1 rfl
      unfold ListenerSys.blocked
      rw [hg, hc0]
      rfl
  | 1 =>
    have hg : s.handlers.get? 1 = some ⟨.errMsg e, b2⟩ := by rw [hh]; rfl
    cases b2 with
    | true =>
      unfold ListenerSys.blocked
      rw [hg]
      rfl
    | false =>
      have he0 : s.errorChan = [] := h2 rfl
      unfold ListenerSys.blocked
      rw [hg, he0]
      rfl
  | Nat.succ (Nat.succ k) =>
    have hg : s.handlers.get? (k + 2) = none := by rw [hh]; rfl
    unfold ListenerSys.blocked
    rw [hg]

/-- Helper: once the select has resolved, no step ever changes the resolved
value: the listener completes exactly once and late messages are never
consumed. -/
theorem resolved_stable (s : ListenerSys) (l : SysLabel)
    (h : s.resolvedVal.isSome) : (s.step l).resolvedVal = s.resolvedVal := by
  cases hr : s.resolvedVal with
  | none => rw [hr] at h; simp at h
  | some r =>
    cases l with
    | timerFire => exact hr
    | selectTimeout =>
      have heq : s.step .selectTimeout = s := by
        unfold ListenerSys.step
        rw [hr]
      rw [heq]
      exact hr
    | selectCode =>
      have heq : s.step .selectCode = s := by
        unfold ListenerSys.step
        rw [hr]
      rw [heq]
      exact hr
    | selectErr =>
      have heq : s.step .selectErr = s := by
        unfold ListenerSys.step
        rw [hr]
      rw [heq]
      exact hr
    | handlerSend i =>
      simp only [ListenerSys.step]
      cases hg : s.handlers.get? i with
      | none => exact hr
      | some hd =>
        obtain ⟨m, b⟩ := hd
        cases b with
        | true => exact hr
        | false =>
          cases m with
          | errMsg e2 =>
            by_cases hf : s.errorChan.length ≥ 1 <;> simp [hf, hr]
          | codeMsg c2 =>
            by_cases hf : s.codeChan.length ≥ 1 <;> simp [hf, hr]

/-- C5 amended: with one valid and one forged callback racing the listener,
no handler goroutine ever blocks under any schedule (each capacity-one
buffer has a single sender, so the late message is absorbed and dropped),
and the select resolves at most once: a resolved value is never changed by
any further step, so exactly one request produces the completed result; no
channel is ever closed in this protocol. -/
theorem C5_two_requests_no_block (expected : String)
    (valid forged : CallbackRequest) (sched : List SysLabel) (i : Nat)
    (s2 : ListenerSys) (l : SysLabel)
    (hv : valid.state = expected) (hcode : valid.code ≠ "")
    (hf : forged.state ≠ expected) (hres : s2.resolvedVal.isSome) :
    ((listenerInit expected [valid, forged]).run sched).blocked i = false ∧
    (s2.step l).resolvedVal = s2.resolvedVal := by
  constructor
  · have hm1 : (handleCallback expected valid).msg = .codeMsg valid.code := by
      unfold handleCallback
      rw [hv]
      simp [hcode]
    have hm2 : (handleCallback expected forged).msg = .errMsg "invalid state parameter" := by
      unfold handleCallback
      rw [if_pos hf]
    apply scenarioInv_not_blocked valid.code "invalid state parameter"
    apply scenarioInv_run
    refine ⟨false, false, ?_, fun hb => rfl, fun hb => rfl⟩
    simp [listenerInit, hm1, hm2]
  · exact resolved_stable s2 l hres

/-- C5 amended witness: a concrete valid/forged pair, schedule, and
resolved state. -/
theorem C5_two_requests_no_block_witness :
    ((listenerInit "s" [⟨"s", "c"⟩, ⟨"x", "c"⟩]).run
        [.handlerSend 1, .handlerSend 0, .selectCode]).blocked 1 = false ∧
    ((⟨[], [], [], false, some (.ok "c")⟩ : ListenerSys).step .selectErr).resolvedVal
      = (⟨[], [], [], false, some (.ok "c")⟩ : ListenerSys).resolvedVal :=
  C5_two_requests_no_block "s" ⟨"s", "c"⟩ ⟨"x", "c"⟩
    [.handlerSend 1, .handlerSend 0, .selectCode] 1
    ⟨[], [], [], false, some (.ok "c")⟩ .selectErr rfl (by decide) (by decide)
    (by decide)

end McpTools
